import Mathlib

/-!
Verification of the eventide frame-combination core: the in-memory image model
(`src/image/mod.rs`) and the frame combiners (`src/calibration/mod.rs`).

Embedding conventions:
* `f32` pixel samples are modelled as exact rationals (`ℚ`); the algorithms are
  embedded structurally, with floating-point rounding abstracted away.
* The `ndarray` pixel grid is a row-major `List ℚ`; `data[[y, x]]` becomes
  `FitsImage.pix`, reading index `y * width + x`.
* Fallible Rust methods returning `Result<_, ImageError>` become `Except`;
  the in-place arithmetic methods return the updated receiver on success, so
  an error result produces no mutated image at all (all-or-nothing).
* The source's `std_dev = variance.sqrt()` leaves `ℚ`; statistics therefore
  store the (population) `variance`, and square roots are taken in `ℝ` inside
  theorem statements (`Real.sqrt`).
-/

namespace Eventide

/-- Possible pixel data types in FITS images (source enum `PixelType`,
`src/image/mod.rs` lines 15-22: `U8, U16, I16, I32, F32, F64`). -/
inductive PixelType where
  | u8
  | u16
  | i16
  | i32
  | f32
  | f64
deriving DecidableEq, Fintype

/-- Number of bytes used by a pixel type (source `bytes_per_pixel`). -/
def PixelType.bytes_per_pixel : PixelType → Nat
  | .u8 => 1
  | .u16 => 2
  | .i16 => 2
  | .i32 => 4
  | .f32 => 4
  | .f64 => 8

/-- Calibration frame type (source enum `FrameType`). -/
inductive FrameType where
  | light
  | dark
  | flat
  | bias
  | darkFlat
deriving DecidableEq, Fintype

/-- Error types for image operations (source enum `ImageError`; the `IoError`
payload `io::Error` is reduced to its message). -/
inductive ImageError where
  | ioError (msg : String)
  | fitsError (msg : String)
  | dimensionError (msg : String)
  | formatError (msg : String)
  | unsupportedOperation (msg : String)
deriving DecidableEq

/-- Metadata associated with a FITS image (source struct `ImageMetadata`;
`PathBuf` becomes `String`, the extra `HashMap` an association list). -/
structure ImageMetadata where
  dimensions : Nat × Nat
  pixelType : PixelType
  exposure_time : Option ℚ
  temperature : Option ℚ
  iso_gain : Option Nat
  filter : Option String
  file_path : Option String
  extra : List (String × String)
deriving DecidableEq

/-- `Default for ImageMetadata` from the source: zero dimensions, `U16`. -/
def ImageMetadata.default : ImageMetadata :=
  { dimensions := (0, 0)
    pixelType := .u16
    exposure_time := none
    temperature := none
    iso_gain := none
    filter := none
    file_path := none
    extra := [] }

/-- Core FITS image struct: metadata, row-major pixel data, frame type. -/
structure FitsImage where
  metadata : ImageMetadata
  data : List ℚ
  frame_type : FrameType
deriving DecidableEq

/-- Source `dimensions()`: the `(width, height)` pair stored in the metadata. -/
def FitsImage.dimensions (img : FitsImage) : Nat × Nat :=
  img.metadata.dimensions

def FitsImage.width (img : FitsImage) : Nat :=
  img.metadata.dimensions.1

def FitsImage.height (img : FitsImage) : Nat :=
  img.metadata.dimensions.2

/-- Source `FitsImage::new`: a zero-filled `height × width` buffer, default
metadata with the given dimensions, `Light` frame type. -/
def FitsImage.new (width height : Nat) : FitsImage :=
  { metadata := { ImageMetadata.default with dimensions := (width, height) }
    data := List.replicate (height * width) 0
    frame_type := .light }

/-- The read `img.data[[y, x]]` on the row-major buffer (out-of-range reads,
which panic in Rust and never happen on well-formed images, default to 0). -/
def FitsImage.pix (img : FitsImage) (y x : Nat) : ℚ :=
  img.data.getD (y * img.width + x) 0

/-- Row-major buffer built from a per-coordinate formula: the functional
rendering of the source's `for y in 0..height { for x in 0..width { ... } }`
fill loops over a fresh (or fully overwritten well-formed) buffer. -/
def mkGrid (width height : Nat) (f : Nat → Nat → ℚ) : List ℚ :=
  (List.range (height * width)).map (fun i => f (i / width) (i % width))

/-- The value of Rust's `f32::MAX` (largest finite `f32`), exactly. -/
def f32Max : ℚ := 340282346638528859811704183484516925440

/-- The value of Rust's `f32::MIN` (lowest finite `f32`), exactly. -/
def f32Lowest : ℚ := -f32Max

/-- The uniform-dimensions check shared by the three combiners: every image's
`dimensions()` equals the first image's (the `images.iter().skip(1)` loop). -/
def sameDimensions (images : List FitsImage) : Bool :=
  match images with
  | [] => true
  | first :: rest => rest.all (fun img => img.dimensions == first.dimensions)

/-- Source `average` (`src/calibration/mod.rs` lines 4-60): empty-input check,
dimension check, then a fresh image holding the per-coordinate arithmetic mean,
with metadata and frame type copied from the first input. -/
def average (images : List FitsImage) : Except ImageError FitsImage :=
  match images with
  | [] => .error (.formatError "No images provided for averaging")
  | first :: rest =>
    if rest.all (fun img => img.dimensions == first.dimensions) then
      .ok { metadata := first.metadata
            frame_type := first.frame_type
            data := mkGrid first.width first.height (fun y x =>
              ((first :: rest).map (fun img => img.pix y x)).sum /
                (((first :: rest).length : ℚ))) }
    else
      .error (.dimensionError "All images must have the same dimensions for averaging")

/-- Per-coordinate median rule of the source `median` combiner (lines 95-104):
sort ascending, then take the middle element (odd count) or the average of the
two middle elements (even count). The total order on `ℚ` plays the role of the
source's `partial_cmp` comparison (which only differs on NaN). -/
def medianOfList (values : List ℚ) : ℚ :=
  let sorted := List.insertionSort (fun a b : ℚ => a ≤ b) values
  if values.length % 2 = 0 then
    (sorted.getD (values.length / 2 - 1) 0 + sorted.getD (values.length / 2) 0) / 2
  else
    sorted.getD (values.length / 2) 0

/-- Source `median` (`src/calibration/mod.rs` lines 63-111). -/
def median (images : List FitsImage) : Except ImageError FitsImage :=
  match images with
  | [] => .error (.formatError "No images provided for median")
  | first :: rest =>
    if rest.all (fun img => img.dimensions == first.dimensions) then
      .ok { metadata := first.metadata
            frame_type := first.frame_type
            data := mkGrid first.width first.height (fun y x =>
              medianOfList ((first :: rest).map (fun img => img.pix y x))) }
    else
      .error (.dimensionError "All images must have the same dimensions for median")

/-- Population mean: `values.iter().sum::<f32>() / values.len() as f32`. -/
def popMean (values : List ℚ) : ℚ :=
  values.sum / (values.length : ℚ)

/-- Population variance (denominator = sample count): the source's
`values.iter().map(|&v| (v - mean).powi(2)).sum::<f32>() / values.len() as f32`. -/
def popVar (values : List ℚ) : ℚ :=
  (values.map (fun v => (v - popMean values) ^ 2)).sum / (values.length : ℚ)

/-- One retain test of the sigma-clipping loop. The source computes
`std_dev = variance.sqrt()` and keeps `v` iff
`mean - sigma * std_dev <= v && v <= mean + sigma * std_dev`; over exact
rationals this is rendered by the equivalent squared comparison, proved
equivalent to the square-root bounds in `clipKeep_iff_sqrt_bounds`. -/
def clipKeep (mean variance sigma v : ℚ) : Bool :=
  (decide (0 ≤ sigma) || decide (variance = 0)) &&
    decide ((v - mean) ^ 2 ≤ sigma ^ 2 * variance)

/-- One pass of the clipping loop body: `values.retain(|&v| ...)` with the
bounds computed from the current mean and standard deviation. -/
def clipOnce (sigma : ℚ) (values : List ℚ) : List ℚ :=
  values.filter (fun v => clipKeep (popMean values) (popVar values) sigma v)

/-- The `for _ in 0..iterations` loop of `sigma_clipping`: stop early when two
or fewer samples remain, otherwise clip once and continue. -/
def clipIter (sigma : ℚ) : Nat → List ℚ → List ℚ
  | 0, values => values
  | n + 1, values =>
    if values.length ≤ 2 then values
    else clipIter sigma n (clipOnce sigma values)

/-- Per-coordinate result of `sigma_clipping` (lines 150-177): iterate the
clipping loop, then take the mean of the survivors, or 0.0 if none remain. -/
def sigmaClipPixel (sigma : ℚ) (iterations : Nat) (values : List ℚ) : ℚ :=
  let remaining := clipIter sigma iterations values
  if remaining.isEmpty then 0
  else remaining.sum / (remaining.length : ℚ)

/-- Source `sigma_clipping` (`src/calibration/mod.rs` lines 114-182). -/
def sigma_clipping (images : List FitsImage) (sigma : ℚ) (iterations : Nat) :
    Except ImageError FitsImage :=
  match images with
  | [] => .error (.formatError "No images provided for sigma clipping")
  | first :: rest =>
    if rest.all (fun img => img.dimensions == first.dimensions) then
      .ok { metadata := first.metadata
            frame_type := first.frame_type
            data := mkGrid first.width first.height (fun y x =>
              sigmaClipPixel sigma iterations
                ((first :: rest).map (fun img => img.pix y x))) }
    else
      .error (.dimensionError "All images must have the same dimensions for sigma clipping")

/-- Statistics snapshot (source struct `ImageStatistics`); the source stores
`std_dev = variance.sqrt()`, which leaves `ℚ`, so the embedding stores the
population `variance` and theorems speak of `Real.sqrt variance`. -/
structure ImageStatistics where
  min : ℚ
  max : ℚ
  mean : ℚ
  median : ℚ
  variance : ℚ
deriving DecidableEq

/-- Median step of `calculate_statistics` (lines 392-399): the same sorted
odd/even middle rule, but with an explicit 0.0 result on an empty buffer. -/
def statsMedian (values : List ℚ) : ℚ :=
  if values.isEmpty then 0 else medianOfList values

/-- Source `calculate_statistics` (`src/image/mod.rs` lines 361-408): min and
max fold from the `f32::MAX` / `f32::MIN` sentinels with strict-comparison
updates, mean = sum / count, population variance, sorted median. The source's
single min/max/sum pass is split into one fold per accumulator. -/
def FitsImage.calculate_statistics (img : FitsImage) : ImageStatistics :=
  let minv := img.data.foldl (fun m v => if v < m then v else m) f32Max
  let maxv := img.data.foldl (fun m v => if v > m then v else m) f32Lowest
  let count : ℚ := img.data.length
  let mean := img.data.sum / count
  let varianceSum := (img.data.map (fun v => (v - mean) ^ 2)).sum
  { min := minv
    max := maxv
    mean := mean
    median := statsMedian img.data
    variance := varianceSum / count }

/-- The elementwise in-place update loop shared by the arithmetic methods:
every coordinate of the receiver is overwritten with `f self[[y,x]] other[[y,x]]`
(functional rendering of the `for y { for x { ... } }` mutation). -/
def FitsImage.zipWith (f : ℚ → ℚ → ℚ) (self other : FitsImage) : FitsImage :=
  { self with data := mkGrid self.width self.height (fun y x =>
      f (self.pix y x) (other.pix y x)) }

/-- Source `add` (`src/image/mod.rs` lines 411-427): dimension check before
any mutation, then elementwise addition. -/
def FitsImage.add (self other : FitsImage) : Except ImageError FitsImage :=
  if self.dimensions ≠ other.dimensions then
    .error (.dimensionError "Images must have the same dimensions for addition")
  else
    .ok (FitsImage.zipWith (fun a b => a + b) self other)

/-- Source `subtract` (lines 430-446). -/
def FitsImage.subtract (self other : FitsImage) : Except ImageError FitsImage :=
  if self.dimensions ≠ other.dimensions then
    .error (.dimensionError "Images must have the same dimensions for subtraction")
  else
    .ok (FitsImage.zipWith (fun a b => a - b) self other)

/-- Source `multiply` (lines 449-465). -/
def FitsImage.multiply (self other : FitsImage) : Except ImageError FitsImage :=
  if self.dimensions ≠ other.dimensions then
    .error (.dimensionError "Images must have the same dimensions for multiplication")
  else
    .ok (FitsImage.zipWith (fun a b => a * b) self other)

/-- The divisor guard threshold: the source's `1e-10` literal. -/
def divideEpsilon : ℚ := 1 / 10 ^ 10

/-- Source `divide` (lines 468-489): dimension check, then elementwise
division with the zero-guard `if divisor.abs() < 1e-10 { 0.0 }`. -/
def FitsImage.divide (self other : FitsImage) : Except ImageError FitsImage :=
  if self.dimensions ≠ other.dimensions then
    .error (.dimensionError "Images must have the same dimensions for division")
  else
    .ok (FitsImage.zipWith (fun a b => if |b| < divideEpsilon then 0 else a / b) self other)

/-- Source `scale` (lines 492-500): multiply every sample by a constant. -/
def FitsImage.scale (self : FitsImage) (factor : ℚ) : FitsImage :=
  { self with data := mkGrid self.width self.height (fun y x =>
      self.pix y x * factor) }

/-- Replace only the recorded on-disk encoding of an image. -/
def FitsImage.withPixelType (img : FitsImage) (pt : PixelType) : FitsImage :=
  { img with metadata := { img.metadata with pixelType := pt } }

/-- Spec-side retain condition, following the spec's words: a sample is kept
iff it lies in `[mean - sigma * std_dev, mean + sigma * std_dev]` where
`std_dev` is the real square root of the population variance. -/
def SpecKeep (values : List ℚ) (sigma v : ℚ) : Prop :=
  ((popMean values : ℝ) - (sigma : ℝ) * Real.sqrt ((popVar values : ℚ) : ℝ) ≤ (v : ℝ)) ∧
  ((v : ℝ) ≤ (popMean values : ℝ) + (sigma : ℝ) * Real.sqrt ((popVar values : ℚ) : ℝ))

/-- Spec-side single clipping pass: the survivors are exactly the sublist of
samples satisfying `SpecKeep` (filtering by some boolean test that decides it,
so multiplicities are preserved). -/
def SpecClipStep (sigma : ℚ) (l l' : List ℚ) : Prop :=
  ∃ p : ℚ → Bool, (∀ v, p v = true ↔ SpecKeep l sigma v) ∧ l' = l.filter p

/-- Spec-side clipping iteration: repeat up to `n` times, stopping early as
soon as two or fewer samples remain. -/
def SpecClip (sigma : ℚ) : Nat → List ℚ → List ℚ → Prop
  | 0, l, l' => l' = l
  | n + 1, l, l' =>
    if l.length ≤ 2 then l' = l
    else ∃ m, SpecClipStep sigma l m ∧ SpecClip sigma n m l'

/-- A concrete 2×2 image with buffer `[1, 2, 3, 4]`. -/
def img1234 : FitsImage :=
  { metadata := { ImageMetadata.default with dimensions := (2, 2) }
    data := [1, 2, 3, 4]
    frame_type := .light }

/-- A concrete 2×2 divisor image containing an exact zero sample. -/
def imgDivisor : FitsImage :=
  { metadata := { ImageMetadata.default with dimensions := (2, 2) }
    data := [0, 2, 5, 8]
    frame_type := .flat }

/-- A concrete 1×1 image with sample 10. -/
def img10 : FitsImage :=
  { metadata := { ImageMetadata.default with dimensions := (1, 1) }
    data := [10]
    frame_type := .light }

/-- A concrete 1×1 image with sample 20. -/
def img20 : FitsImage :=
  { metadata := { ImageMetadata.default with dimensions := (1, 1) }
    data := [20]
    frame_type := .light }

/-- A concrete 1×1 image with sample 30. -/
def img30 : FitsImage :=
  { metadata := { ImageMetadata.default with dimensions := (1, 1) }
    data := [30]
    frame_type := .light }

/-! ### Helper lemmas -/

/-- Reading back a coordinate of a freshly built row-major grid. -/
theorem mkGrid_getD (width height : Nat) (f : Nat → Nat → ℚ) (y x : Nat)
    (hy : y < height) (hx : x < width) :
    (mkGrid width height f).getD (y * width + x) 0 = f y x := by
  have hw : 0 < width := Nat.pos_of_ne_zero (by omega)
  have hi : y * width + x < height * width := by
    have h1 : y * width + x < (y + 1) * width := by
      have : (y + 1) * width = y * width + width := by ring
      omega
    have h2 : (y + 1) * width ≤ height * width :=
      Nat.mul_le_mul_right _ hy
    omega
  have hlen : y * width + x < (mkGrid width height f).length := by
    simpa [mkGrid] using hi
  rw [List.getD_eq_getElem _ _ hlen]
  have hrw : y * width + x = width * y + x := by ring
  simp only [mkGrid, List.getElem_map, List.getElem_range]
  rw [hrw, Nat.mul_add_div hw, Nat.mul_add_mod, Nat.div_eq_of_lt hx,
    Nat.mod_eq_of_lt hx, Nat.add_zero]

/-- `pix` on an image whose buffer was built by `mkGrid` from its metadata. -/
theorem pix_grid (md : ImageMetadata) (ft : FrameType) (g : Nat → Nat → ℚ)
    (y x : Nat) (hy : y < md.dimensions.2) (hx : x < md.dimensions.1) :
    FitsImage.pix
      { metadata := md
        data := mkGrid md.dimensions.1 md.dimensions.2 g
        frame_type := ft } y x = g y x := by
  show (mkGrid md.dimensions.1 md.dimensions.2 g).getD (y * md.dimensions.1 + x) 0 = g y x
  exact mkGrid_getD _ _ _ _ _ hy hx

/-- `pix_grid` restated through the `width`/`height` projections, as the
combiner outputs are written. -/
theorem pix_grid' (img : FitsImage) (ft : FrameType) (g : Nat → Nat → ℚ)
    (y x : Nat) (hy : y < img.height) (hx : x < img.width) :
    FitsImage.pix
      { metadata := img.metadata
        data := mkGrid img.width img.height g
        frame_type := ft } y x = g y x :=
  pix_grid img.metadata ft g y x hy hx

/-- The strict-comparison min fold lands on a member of `init :: l` and is a
lower bound for all of them. -/
theorem foldl_min_spec (l : List ℚ) (a : ℚ) :
    l.foldl (fun m v => if v < m then v else m) a ∈ a :: l ∧
      ∀ v ∈ a :: l, l.foldl (fun m v => if v < m then v else m) a ≤ v := by
  induction l generalizing a with
  | nil =>
    refine ⟨List.mem_cons_self _ _, ?_⟩
    intro v hv
    rcases List.mem_cons.mp hv with rfl | hv'
    · exact le_refl _
    · exact absurd hv' (List.not_mem_nil _)
  | cons w t ih =>
    by_cases hwa : w < a
    · obtain ⟨hmem, hle⟩ := ih w
      refine ⟨?_, ?_⟩
      · simp only [List.foldl_cons, if_pos hwa]
        exact List.mem_cons.mpr (Or.inr hmem)
      · intro v hv
        simp only [List.foldl_cons, if_pos hwa]
        rcases List.mem_cons.mp hv with rfl | hv'
        · exact le_trans (hle w (List.mem_cons_self _ _)) (le_of_lt hwa)
        · exact hle v hv'
    · obtain ⟨hmem, hle⟩ := ih a
      refine ⟨?_, ?_⟩
      · simp only [List.foldl_cons, if_neg hwa]
        rcases List.mem_cons.mp hmem with h | h
        · exact List.mem_cons.mpr (Or.inl h)
        · exact List.mem_cons.mpr (Or.inr (List.mem_cons.mpr (Or.inr h)))
      · intro v hv
        simp only [List.foldl_cons, if_neg hwa]
        rcases List.mem_cons.mp hv with rfl | hv'
        · exact hle v (List.mem_cons_self _ _)
        · rcases List.mem_cons.mp hv' with rfl | hv''
          · exact le_trans (hle _ (List.mem_cons_self _ _)) (le_of_not_lt hwa)
          · exact hle v (List.mem_cons.mpr (Or.inr hv''))

/-- The strict-comparison max fold lands on a member of `init :: l` and is an
upper bound for all of them. -/
theorem foldl_max_spec (l : List ℚ) (a : ℚ) :
    l.foldl (fun m v => if v > m then v else m) a ∈ a :: l ∧
      ∀ v ∈ a :: l, v ≤ l.foldl (fun m v => if v > m then v else m) a := by
  induction l generalizing a with
  | nil =>
    refine ⟨List.mem_cons_self _ _, ?_⟩
    intro v hv
    rcases List.mem_cons.mp hv with rfl | hv'
    · exact le_refl _
    · exact absurd hv' (List.not_mem_nil _)
  | cons w t ih =>
    by_cases hwa : w > a
    · obtain ⟨hmem, hle⟩ := ih w
      refine ⟨?_, ?_⟩
      · simp only [List.foldl_cons, if_pos hwa]
        exact List.mem_cons.mpr (Or.inr hmem)
      · intro v hv
        simp only [List.foldl_cons, if_pos hwa]
        rcases List.mem_cons.mp hv with rfl | hv'
        · exact le_trans (le_of_lt hwa) (hle w (List.mem_cons_self _ _))
        · exact hle v hv'
    · obtain ⟨hmem, hle⟩ := ih a
      refine ⟨?_, ?_⟩
      · simp only [List.foldl_cons, if_neg hwa]
        rcases List.mem_cons.mp hmem with h | h
        · exact List.mem_cons.mpr (Or.inl h)
        · exact List.mem_cons.mpr (Or.inr (List.mem_cons.mpr (Or.inr h)))
      · intro v hv
        simp only [List.foldl_cons, if_neg hwa]
        rcases List.mem_cons.mp hv with rfl | hv'
        · exact hle v (List.mem_cons_self _ _)
        · rcases List.mem_cons.mp hv' with rfl | hv''
          · exact le_trans (le_of_not_lt hwa) (hle _ (List.mem_cons_self _ _))
          · exact hle v (List.mem_cons.mpr (Or.inr hv''))

/-- The population variance is nonnegative. -/
theorem popVar_nonneg (values : List ℚ) : 0 ≤ popVar values := by
  unfold popVar
  apply div_nonneg
  · apply List.sum_nonneg
    intro x hx
    obtain ⟨v, _, rfl⟩ := List.mem_map.mp hx
    positivity
  · exact_mod_cast Nat.zero_le _

/-- The squared retain test of the embedding is exactly the source's
square-root bounds test read in `ℝ`. -/
theorem clipKeep_iff_sqrt_bounds (m var sigma v : ℚ) (hvar : 0 ≤ var) :
    clipKeep m var sigma v = true ↔
      (((m : ℝ) - (sigma : ℝ) * Real.sqrt ((var : ℚ) : ℝ) ≤ (v : ℝ)) ∧
       ((v : ℝ) ≤ (m : ℝ) + (sigma : ℝ) * Real.sqrt ((var : ℚ) : ℝ))) := by
  have hvR : (0 : ℝ) ≤ ((var : ℚ) : ℝ) := by exact_mod_cast hvar
  have hs0 : 0 ≤ Real.sqrt ((var : ℚ) : ℝ) := Real.sqrt_nonneg _
  have hs2 : Real.sqrt ((var : ℚ) : ℝ) ^ 2 = ((var : ℚ) : ℝ) := Real.sq_sqrt hvR
  simp only [clipKeep, Bool.and_eq_true, Bool.or_eq_true, decide_eq_true_eq]
  constructor
  · rintro ⟨h1, h2⟩
    have h2R : (((v : ℚ) : ℝ) - ((m : ℚ) : ℝ)) ^ 2 ≤
        ((sigma : ℚ) : ℝ) ^ 2 * ((var : ℚ) : ℝ) := by exact_mod_cast h2
    have hss : 0 ≤ ((sigma : ℚ) : ℝ) * Real.sqrt ((var : ℚ) : ℝ) := by
      rcases h1 with h1 | h1
      · exact mul_nonneg (by exact_mod_cast h1) hs0
      · have hv0 : ((var : ℚ) : ℝ) = 0 := by exact_mod_cast h1
        rw [hv0, Real.sqrt_zero, mul_zero]
    have hsq : (((v : ℚ) : ℝ) - ((m : ℚ) : ℝ)) ^ 2 ≤
        (((sigma : ℚ) : ℝ) * Real.sqrt ((var : ℚ) : ℝ)) ^ 2 := by
      calc (((v : ℚ) : ℝ) - ((m : ℚ) : ℝ)) ^ 2
          ≤ ((sigma : ℚ) : ℝ) ^ 2 * ((var : ℚ) : ℝ) := h2R
        _ = (((sigma : ℚ) : ℝ) * Real.sqrt ((var : ℚ) : ℝ)) ^ 2 := by
            rw [mul_pow, hs2]
    constructor
    · nlinarith [hsq, hss]
    · nlinarith [hsq, hss]
  · rintro ⟨h1, h2⟩
    have hss : 0 ≤ ((sigma : ℚ) : ℝ) * Real.sqrt ((var : ℚ) : ℝ) := by nlinarith
    constructor
    · by_cases hσ : 0 ≤ sigma
      · exact Or.inl hσ
      · right
        by_contra hv0
        have hvpos : 0 < ((var : ℚ) : ℝ) := by
          rcases lt_or_eq_of_le hvR with h | h
          · exact h
          · exact absurd (show var = (0 : ℚ) by exact_mod_cast h.symm) hv0
        have hspos : 0 < Real.sqrt ((var : ℚ) : ℝ) := Real.sqrt_pos.mpr hvpos
        have hσR : ((sigma : ℚ) : ℝ) < 0 := by exact_mod_cast not_le.mp hσ
        nlinarith
    · have hsq : (((v : ℚ) : ℝ) - ((m : ℚ) : ℝ)) ^ 2 ≤
          (((sigma : ℚ) : ℝ) * Real.sqrt ((var : ℚ) : ℝ)) ^ 2 := by nlinarith
      have hfin : (((v : ℚ) : ℝ) - ((m : ℚ) : ℝ)) ^ 2 ≤
          ((sigma : ℚ) : ℝ) ^ 2 * ((var : ℚ) : ℝ) := by
        calc (((v : ℚ) : ℝ) - ((m : ℚ) : ℝ)) ^ 2
            ≤ (((sigma : ℚ) : ℝ) * Real.sqrt ((var : ℚ) : ℝ)) ^ 2 := hsq
          _ = ((sigma : ℚ) : ℝ) ^ 2 * ((var : ℚ) : ℝ) := by rw [mul_pow, hs2]
      exact_mod_cast hfin

/-- The executable clipping loop realises the spec-side clipping relation. -/
theorem specClip_clipIter (sigma : ℚ) (n : Nat) (l : List ℚ) :
    SpecClip sigma n l (clipIter sigma n l) := by
  induction n generalizing l with
  | zero => rfl
  | succ k ih =>
    by_cases h : l.length ≤ 2
    · simp [SpecClip, clipIter, h]
    · simp only [SpecClip, clipIter, if_neg h]
      refine ⟨clipOnce sigma l,
        ⟨fun v => clipKeep (popMean l) (popVar l) sigma v, ?_, rfl⟩, ih _⟩
      intro v
      exact clipKeep_iff_sqrt_bounds (popMean l) (popVar l) sigma v (popVar_nonneg l)

/-- With two or fewer samples the clipping loop is the identity. -/
theorem clipIter_short (sigma : ℚ) (n : Nat) (l : List ℚ) (h : l.length ≤ 2) :
    clipIter sigma n l = l := by
  cases n with
  | zero => rfl
  | succ k => simp [clipIter, h]

/-- `medianOfList` of a singleton. -/
theorem medianOfList_singleton (a : ℚ) : medianOfList [a] = a := by
  simp [medianOfList, List.insertionSort, List.orderedInsert]

/-- `medianOfList` of a pair is the midpoint. -/
theorem medianOfList_pair (a b : ℚ) : medianOfList [a, b] = (a + b) / 2 := by
  by_cases hab : a ≤ b
  · simp [medianOfList, List.insertionSort, List.orderedInsert, hab]
  · simp only [medianOfList, List.insertionSort, List.orderedInsert, if_neg hab]
    norm_num
    ring

/-- Shape of a successful `average` call. -/
theorem average_ok (first : FitsImage) (rest : List FitsImage)
    (hdims : (rest.all (fun img => img.dimensions == first.dimensions)) = true) :
    average (first :: rest) = .ok
      { metadata := first.metadata
        frame_type := first.frame_type
        data := mkGrid first.width first.height (fun y x =>
          ((first :: rest).map (fun img => img.pix y x)).sum /
            (((first :: rest).length : ℚ))) } := by
  simp [average, hdims]

/-- Shape of a successful `median` call. -/
theorem median_ok (first : FitsImage) (rest : List FitsImage)
    (hdims : (rest.all (fun img => img.dimensions == first.dimensions)) = true) :
    median (first :: rest) = .ok
      { metadata := first.metadata
        frame_type := first.frame_type
        data := mkGrid first.width first.height (fun y x =>
          medianOfList ((first :: rest).map (fun img => img.pix y x))) } := by
  simp [median, hdims]

/-- Shape of a successful `sigma_clipping` call. -/
theorem sigma_clipping_ok (first : FitsImage) (rest : List FitsImage)
    (sigma : ℚ) (iterations : Nat)
    (hdims : (rest.all (fun img => img.dimensions == first.dimensions)) = true) :
    sigma_clipping (first :: rest) sigma iterations = .ok
      { metadata := first.metadata
        frame_type := first.frame_type
        data := mkGrid first.width first.height (fun y x =>
          sigmaClipPixel sigma iterations
            ((first :: rest).map (fun img => img.pix y x))) } := by
  simp [sigma_clipping, hdims]

/-- `medianOfList` agrees with the sorted odd/even middle rule for some sorted
permutation of the input. -/
theorem medianOfList_sorted_rule (values : List ℚ) :
    ∃ sorted : List ℚ,
      List.Perm sorted values ∧ sorted.Sorted (fun a b : ℚ => a ≤ b) ∧
      medianOfList values =
        (if values.length % 2 = 0 then
          (sorted.getD (values.length / 2 - 1) 0 +
            sorted.getD (values.length / 2) 0) / 2
        else sorted.getD (values.length / 2) 0) :=
  ⟨List.insertionSort (fun a b : ℚ => a ≤ b) values,
    List.perm_insertionSort _ values,
    List.sorted_insertionSort _ values, rfl⟩

/-! ### Claim theorems -/

/-- C1: for every non-empty list of same-dimensioned images, `average`
succeeds and every output coordinate is the arithmetic mean of that
coordinate's samples across all inputs; in particular `average` of `n` copies
of one image reproduces that image's samples exactly at every coordinate. -/
theorem average_mean_pointwise :
    (∀ (first : FitsImage) (rest : List FitsImage),
      (rest.all (fun img => img.dimensions == first.dimensions)) = true →
      ∃ r, average (first :: rest) = .ok r ∧
        r.dimensions = first.dimensions ∧
        ∀ y x, y < first.height → x < first.width →
          r.pix y x =
            ((first :: rest).map (fun img => img.pix y x)).sum /
              (((first :: rest).length : ℚ))) ∧
    (∀ (img : FitsImage) (n : Nat), 0 < n →
      ∃ r, average (List.replicate n img) = .ok r ∧
        ∀ y x, y < img.height → x < img.width → r.pix y x = img.pix y x) := by
  have hgen : ∀ (first : FitsImage) (rest : List FitsImage),
      (rest.all (fun img => img.dimensions == first.dimensions)) = true →
      ∃ r, average (first :: rest) = .ok r ∧
        r.dimensions = first.dimensions ∧
        ∀ y x, y < first.height → x < first.width →
          r.pix y x = ((first :: rest).map (fun img => img.pix y x)).sum /
            (((first :: rest).length : ℚ)) := by
    intro first rest hdims
    refine ⟨_, average_ok first rest hdims, rfl, ?_⟩
    intro y x hy hx
    exact pix_grid first.metadata first.frame_type _ y x hy hx
  refine ⟨hgen, ?_⟩
  intro img n hn
  obtain ⟨k, rfl⟩ : ∃ k, n = k + 1 := ⟨n - 1, by omega⟩
  have hrepl : List.replicate (k + 1) img = img :: List.replicate k img := rfl
  have hdims : ((List.replicate k img).all
      (fun i => i.dimensions == img.dimensions)) = true := by
    simp [List.all_eq_true]
  obtain ⟨r, hok, _, hpix⟩ := hgen img (List.replicate k img) hdims
  refine ⟨r, by rw [hrepl]; exact hok, ?_⟩
  intro y x hy hx
  rw [hpix y x hy hx]
  have hmap : (img :: List.replicate k img).map (fun i => i.pix y x)
      = List.replicate (k + 1) (img.pix y x) := by
    simp [List.replicate_succ]
  rw [hmap, List.sum_replicate, nsmul_eq_mul]
  have hlen : (((img :: List.replicate k img).length : ℚ)) = ((k : ℚ) + 1) := by
    push_cast [List.length_cons, List.length_replicate]
    ring
  rw [hlen]
  have hne : ((k : ℚ) + 1) ≠ 0 := by positivity
  push_cast
  field_simp

/-- C1 witness: a one-image list and three copies of a 1×1 image. -/
theorem average_mean_pointwise_witness :
    (∃ r, average [img1234] = .ok r ∧
      r.dimensions = img1234.dimensions ∧
      ∀ y x, y < img1234.height → x < img1234.width →
        r.pix y x = ([img1234].map (fun img => img.pix y x)).sum /
          ((([img1234] : List FitsImage).length : ℚ))) ∧
    (∃ r, average (List.replicate 3 img10) = .ok r ∧
      ∀ y x, y < img10.height → x < img10.width → r.pix y x = img10.pix y x) :=
  ⟨average_mean_pointwise.1 img1234 [] rfl,
   average_mean_pointwise.2 img10 3 (by decide)⟩

/-- C3: the combiners reject an empty input list with the empty-input error
(`FormatError` in the source, the spec's EmptyInput) and reject mismatched
dimensions with the dimension error, producing no output image in either case;
the in-place arithmetic methods reject a mismatched operand with the dimension
error, and since an error result carries no updated image, the receiver's
buffer is untouched (all-or-nothing). -/
theorem preconditions_validated :
    (average [] = .error (.formatError "No images provided for averaging")) ∧
    (median [] = .error (.formatError "No images provided for median")) ∧
    (∀ (sigma : ℚ) (iterations : Nat),
      sigma_clipping [] sigma iterations =
        .error (.formatError "No images provided for sigma clipping")) ∧
    (∀ (first : FitsImage) (rest : List FitsImage),
      (rest.all (fun img => img.dimensions == first.dimensions)) = false →
      average (first :: rest) =
        .error (.dimensionError "All images must have the same dimensions for averaging") ∧
      median (first :: rest) =
        .error (.dimensionError "All images must have the same dimensions for median") ∧
      ∀ (sigma : ℚ) (iterations : Nat),
        sigma_clipping (first :: rest) sigma iterations =
          .error (.dimensionError "All images must have the same dimensions for sigma clipping")) ∧
    (∀ a b : FitsImage, a.dimensions ≠ b.dimensions →
      a.add b = .error (.dimensionError "Images must have the same dimensions for addition") ∧
      a.subtract b = .error (.dimensionError "Images must have the same dimensions for subtraction") ∧
      a.multiply b = .error (.dimensionError "Images must have the same dimensions for multiplication") ∧
      a.divide b = .error (.dimensionError "Images must have the same dimensions for division")) := by
  refine ⟨rfl, rfl, fun _ _ => rfl, ?_, ?_⟩
  · intro first rest hdims
    refine ⟨?_, ?_, fun sigma iterations => ?_⟩
    · simp [average, hdims]
    · simp [median, hdims]
    · simp [sigma_clipping, hdims]
  · intro a b hdims
    refine ⟨?_, ?_, ?_, ?_⟩
    · simp [FitsImage.add, hdims]
    · simp [FitsImage.subtract, hdims]
    · simp [FitsImage.multiply, hdims]
    · simp [FitsImage.divide, hdims]

/-- C3 witness: combining a 2×2 with a 3×3 image, and the empty list. -/
theorem preconditions_validated_witness :
    (average [] = .error (.formatError "No images provided for averaging")) ∧
    (average [FitsImage.new 2 2, FitsImage.new 3 3] =
      .error (.dimensionError "All images must have the same dimensions for averaging")) ∧
    ((FitsImage.new 2 2).add (FitsImage.new 3 3) =
      .error (.dimensionError "Images must have the same dimensions for addition")) :=
  ⟨preconditions_validated.1,
   (preconditions_validated.2.2.2.1 (FitsImage.new 2 2) [FitsImage.new 3 3]
     (by decide)).1,
   (preconditions_validated.2.2.2.2 (FitsImage.new 2 2) (FitsImage.new 3 3)
     (by decide)).1⟩

/-- C4: for every non-empty list of same-dimensioned images, `median` succeeds
and each output coordinate is the sorted odd/even middle rule applied to that
coordinate's samples; consequently `median [a]` returns `a`'s value and
`median [a, b]` returns `(a + b) / 2` at every coordinate. -/
theorem median_middle_rule :
    (∀ (first : FitsImage) (rest : List FitsImage),
      (rest.all (fun img => img.dimensions == first.dimensions)) = true →
      ∃ r, median (first :: rest) = .ok r ∧
        ∀ y x, y < first.height → x < first.width →
          ∃ sorted : List ℚ,
            List.Perm sorted ((first :: rest).map (fun img => img.pix y x)) ∧
            sorted.Sorted (fun a b : ℚ => a ≤ b) ∧
            r.pix y x =
              (if (first :: rest).length % 2 = 0 then
                (sorted.getD ((first :: rest).length / 2 - 1) 0 +
                  sorted.getD ((first :: rest).length / 2) 0) / 2
              else sorted.getD ((first :: rest).length / 2) 0)) ∧
    (∀ a : FitsImage, ∃ r, median [a] = .ok r ∧
      ∀ y x, y < a.height → x < a.width → r.pix y x = a.pix y x) ∧
    (∀ a b : FitsImage, a.dimensions = b.dimensions →
      ∃ r, median [a, b] = .ok r ∧
        ∀ y x, y < a.height → x < a.width →
          r.pix y x = (a.pix y x + b.pix y x) / 2) := by
  refine ⟨?_, ?_, ?_⟩
  · intro first rest hdims
    refine ⟨_, median_ok first rest hdims, ?_⟩
    intro y x hy hx
    rw [pix_grid' first first.frame_type _ y x hy hx]
    obtain ⟨sorted, hperm, hsorted, hmed⟩ :=
      medianOfList_sorted_rule ((first :: rest).map (fun img => img.pix y x))
    refine ⟨sorted, hperm, hsorted, ?_⟩
    rw [hmed]
    simp [List.length_map]
  · intro a
    refine ⟨_, median_ok a [] rfl, ?_⟩
    intro y x hy hx
    rw [pix_grid' a a.frame_type _ y x hy hx]
    simpa using medianOfList_singleton (a.pix y x)
  · intro a b hdims
    have hall : (([b] : List FitsImage).all
        (fun img => img.dimensions == a.dimensions)) = true := by
      simp [hdims]
    refine ⟨_, median_ok a [b] hall, ?_⟩
    intro y x hy hx
    rw [pix_grid' a a.frame_type _ y x hy hx]
    simpa using medianOfList_pair (a.pix y x) (b.pix y x)

/-- C4 witness: one- and two-image lists of concrete 1×1 images. -/
theorem median_middle_rule_witness :
    (∃ r, median [img10, img20, img30] = .ok r ∧
      ∀ y x, y < img10.height → x < img10.width →
        ∃ sorted : List ℚ,
          List.Perm sorted ([img10, img20, img30].map (fun img => img.pix y x)) ∧
          sorted.Sorted (fun a b : ℚ => a ≤ b) ∧
          r.pix y x =
            (if ([img10, img20, img30] : List FitsImage).length % 2 = 0 then
              (sorted.getD (([img10, img20, img30] : List FitsImage).length / 2 - 1) 0 +
                sorted.getD (([img10, img20, img30] : List FitsImage).length / 2) 0) / 2
            else sorted.getD (([img10, img20, img30] : List FitsImage).length / 2) 0)) ∧
    (∃ r, median [img10] = .ok r ∧
      ∀ y x, y < img10.height → x < img10.width → r.pix y x = img10.pix y x) ∧
    (∃ r, median [img10, img20] = .ok r ∧
      ∀ y x, y < img10.height → x < img10.width →
        r.pix y x = (img10.pix y x + img20.pix y x) / 2) :=
  ⟨median_middle_rule.1 img10 [img20, img30] (by decide),
   median_middle_rule.2.1 img10,
   median_middle_rule.2.2 img10 img20 (by decide)⟩

/-- With two or fewer samples the per-coordinate sigma-clip result is the
plain mean. -/
theorem sigmaClipPixel_short (sigma : ℚ) (iterations : Nat) (values : List ℚ)
    (hlen : values.length ≤ 2) (hne : values ≠ []) :
    sigmaClipPixel sigma iterations values = values.sum / ((values.length : ℚ)) := by
  obtain ⟨w, t, rfl⟩ := List.exists_cons_of_ne_nil hne
  unfold sigmaClipPixel
  rw [clipIter_short sigma iterations _ hlen]
  simp

/-- C2: `sigma_clipping` succeeds on a non-empty same-dimensioned list and
computes every output coordinate by the spec's iterative clipping: up to
`iterations` passes over the coordinate's sample set, stopping early when two
or fewer samples remain, each pass discarding exactly the samples outside
`[mean - sigma * std_dev, mean + sigma * std_dev]` for the population mean and
standard deviation (denominator = count) of the current set; the output is the
mean of the survivors, or 0.0 when every sample was discarded. -/
theorem sigma_clipping_follows_spec (first : FitsImage) (rest : List FitsImage)
    (hdims : (rest.all (fun img => img.dimensions == first.dimensions)) = true)
    (sigma : ℚ) (iterations : Nat) :
    ∃ r, sigma_clipping (first :: rest) sigma iterations = .ok r ∧
      ∀ y x, y < first.height → x < first.width →
        ∃ survivors : List ℚ,
          SpecClip sigma iterations
            ((first :: rest).map (fun img => img.pix y x)) survivors ∧
          r.pix y x =
            (if survivors = [] then 0
             else survivors.sum / ((survivors.length : ℚ))) := by
  refine ⟨_, sigma_clipping_ok first rest sigma iterations hdims, ?_⟩
  intro y x hy hx
  rw [pix_grid' first first.frame_type _ y x hy hx]
  refine ⟨clipIter sigma iterations ((first :: rest).map (fun img => img.pix y x)),
    specClip_clipIter _ _ _, ?_⟩
  unfold sigmaClipPixel
  by_cases h : clipIter sigma iterations ((first :: rest).map (fun img => img.pix y x)) = []
  · simp [h]
  · simp [h, List.isEmpty_iff]

/-- C2 witness: three 1×1 images, sigma = 1, one iteration. -/
theorem sigma_clipping_follows_spec_witness :
    ∃ r, sigma_clipping [img10, img20, img30] 1 1 = .ok r ∧
      ∀ y x, y < img10.height → x < img10.width →
        ∃ survivors : List ℚ,
          SpecClip 1 1 ([img10, img20, img30].map (fun img => img.pix y x)) survivors ∧
          r.pix y x =
            (if survivors = [] then 0
             else survivors.sum / ((survivors.length : ℚ))) :=
  sigma_clipping_follows_spec img10 [img20, img30] (by decide) 1 1

/-- C7: with `iterations = 0` the clipping loop never runs, so `sigma_clipping`
returns exactly what `average` returns on the same non-empty same-dimensioned
input list, whatever `sigma` is. -/
theorem sigma_clipping_zero_iterations (first : FitsImage) (rest : List FitsImage)
    (hdims : (rest.all (fun img => img.dimensions == first.dimensions)) = true)
    (sigma : ℚ) :
    sigma_clipping (first :: rest) sigma 0 = average (first :: rest) := by
  rw [sigma_clipping_ok first rest sigma 0 hdims, average_ok first rest hdims]
  have hfun : (fun y x => sigmaClipPixel sigma 0
        ((first :: rest).map (fun img => img.pix y x)))
      = fun y x => ((first :: rest).map (fun img => img.pix y x)).sum /
          (((first :: rest).length : ℚ)) := by
    funext y x
    simp [sigmaClipPixel, clipIter]
  rw [hfun]

/-- C7 witness: two 1×1 images, sigma = 2, zero iterations. -/
theorem sigma_clipping_zero_iterations_witness :
    sigma_clipping [img10, img20] 2 0 = average [img10, img20] :=
  sigma_clipping_zero_iterations img10 [img20] (by decide) 2

/-- C10: on a list of at most two same-dimensioned images the clipping loop
stops before removing anything (the ≤2-samples early exit), so for every sigma
and iteration count `sigma_clipping` produces exactly the output `average`
produces (and on inputs where both fail, neither produces an output). -/
theorem sigma_clipping_small_list (images : List FitsImage) (sigma : ℚ)
    (iterations : Nat) (hlen : images.length ≤ 2)
    (hdims : sameDimensions images = true) :
    (sigma_clipping images sigma iterations).toOption =
      (average images).toOption := by
  cases images with
  | nil => rfl
  | cons first rest =>
    have hall : (rest.all (fun img => img.dimensions == first.dimensions)) = true := hdims
    rw [sigma_clipping_ok first rest sigma iterations hall, average_ok first rest hall]
    have hfun : (fun y x => sigmaClipPixel sigma iterations
          ((first :: rest).map (fun img => img.pix y x)))
        = fun y x => ((first :: rest).map (fun img => img.pix y x)).sum /
            (((first :: rest).length : ℚ)) := by
      funext y x
      have hlv : ((first :: rest).map (fun img => img.pix y x)).length ≤ 2 := by
        simpa using hlen
      rw [sigmaClipPixel_short sigma iterations _ hlv (by simp)]
      simp
    rw [hfun]

/-- C10 witness: two 1×1 images, sigma = 3, five iterations. -/
theorem sigma_clipping_small_list_witness :
    (sigma_clipping [img10, img20] 3 5).toOption =
      (average [img10, img20]).toOption :=
  sigma_clipping_small_list [img10, img20] 3 5 (by decide) (by decide)

/-- C8: `divide` on same-dimensioned images succeeds, and at every coordinate
where the divisor's absolute value is below the 1e-10 guard (in particular at
an exact 0.0 divisor) the result is exactly 0.0, while every other coordinate
is the elementwise quotient (no infinity or NaN can arise: the guarded branch
never divides). -/
theorem divide_zero_guard (a b : FitsImage) (hdims : a.dimensions = b.dimensions) :
    ∃ r, a.divide b = .ok r ∧
      ∀ y x, y < a.height → x < a.width →
        r.pix y x = (if |b.pix y x| < divideEpsilon then 0
                     else a.pix y x / b.pix y x) ∧
        (b.pix y x = 0 → r.pix y x = 0) := by
  refine ⟨FitsImage.zipWith
      (fun p q => if |q| < divideEpsilon then 0 else p / q) a b, ?_, ?_⟩
  · simp [FitsImage.divide, hdims]
  · intro y x hy hx
    have hpix : (FitsImage.zipWith
          (fun p q => if |q| < divideEpsilon then 0 else p / q) a b).pix y x
        = (if |b.pix y x| < divideEpsilon then 0 else a.pix y x / b.pix y x) := by
      show FitsImage.pix
        { metadata := a.metadata
          data := mkGrid a.width a.height (fun y x =>
            if |b.pix y x| < divideEpsilon then 0 else a.pix y x / b.pix y x)
          frame_type := a.frame_type } y x = _
      exact pix_grid' a a.frame_type _ y x hy hx
    refine ⟨hpix, ?_⟩
    intro hb0
    rw [hpix, hb0]
    norm_num [divideEpsilon]

/-- C8 witness: a 2×2 dividend against a divisor with an exact zero sample. -/
theorem divide_zero_guard_witness :
    ∃ r, img1234.divide imgDivisor = .ok r ∧
      ∀ y x, y < img1234.height → x < img1234.width →
        r.pix y x = (if |imgDivisor.pix y x| < divideEpsilon then 0
                     else img1234.pix y x / imgDivisor.pix y x) ∧
        (imgDivisor.pix y x = 0 → r.pix y x = 0) :=
  divide_zero_guard img1234 imgDivisor (by decide)

/-- C9 counterexample: the pixel encoding enumeration does not have seven
variants — the source `PixelType` has no unsigned-32 member. -/
theorem pixeltype_not_seven_variants : ¬ (Fintype.card PixelType = 7) := by decide

/-- C9 amended: the pixel encoding is a closed set of exactly six variants
(unsigned-8, unsigned-16, signed-16, signed-32, float-32, float-64 — there is
no unsigned-32), recording only the on-disk representation: the in-memory
arithmetic is independent of it, so changing only `pixelType` changes neither
the outcome of `add`/`divide` nor the resulting pixel buffer. -/
theorem pixeltype_six_variants_encoding_independent :
    Fintype.card PixelType = 6 ∧
    ∀ (a b : FitsImage) (pt : PixelType),
      ((a.withPixelType pt).add b).map FitsImage.data
          = (a.add b).map FitsImage.data ∧
      ((a.withPixelType pt).divide b).map FitsImage.data
          = (a.divide b).map FitsImage.data := by
  refine ⟨by decide, ?_⟩
  intro a b pt
  have hdim : (a.withPixelType pt).dimensions = a.dimensions := rfl
  constructor
  · unfold FitsImage.add
    rw [hdim]
    by_cases h : a.dimensions ≠ b.dimensions
    · rw [if_pos h, if_pos h]
    · rw [if_neg h, if_neg h]
      simp only [Except.map]
      rfl
  · unfold FitsImage.divide
    rw [hdim]
    by_cases h : a.dimensions ≠ b.dimensions
    · rw [if_pos h, if_pos h]
    · rw [if_neg h, if_neg h]
      simp only [Except.map]
      rfl

/-- C6 counterexample: on the empty buffer the statistics do not default every
field to 0.0 — the min field keeps its `f32::MAX` sentinel. -/
theorem stats_empty_not_all_zero :
    ¬ ((FitsImage.new 0 0).calculate_statistics.min = 0 ∧
       (FitsImage.new 0 0).calculate_statistics.max = 0 ∧
       (FitsImage.new 0 0).calculate_statistics.mean = 0 ∧
       (FitsImage.new 0 0).calculate_statistics.median = 0 ∧
       (FitsImage.new 0 0).calculate_statistics.variance = 0) := by decide

/-- C6 amended: on an empty buffer `calculate_statistics` succeeds and the
median defaults to 0.0, but min and max keep the `f32::MAX` / `f32::MIN`
sentinel initial values (mean and std_dev are computed as 0/0, which is NaN in
the source's IEEE arithmetic). -/
theorem stats_empty_sentinels :
    (FitsImage.new 0 0).calculate_statistics.median = 0 ∧
    (FitsImage.new 0 0).calculate_statistics.min = f32Max ∧
    (FitsImage.new 0 0).calculate_statistics.max = f32Lowest := by decide

/-- C5: on a non-empty buffer of samples within the finite `f32` range,
`calculate_statistics` returns the smallest and largest sample as min and max,
mean = sum / count, variance (the square of the source's std_dev) equal to the
population sum of squared deviations over the count, and the median given by
the combiner's sorted odd/even middle rule; on the concrete buffer
`[1, 2, 3, 4]` this yields mean = 2.5, median = 2.5, min = 1, max = 4 and
std_dev = √variance within 10⁻⁵ of 1.11803. -/
theorem statistics_spec :
    (∀ img : FitsImage, img.data ≠ [] →
      (∀ v ∈ img.data, f32Lowest ≤ v ∧ v ≤ f32Max) →
      (img.calculate_statistics.min ∈ img.data ∧
        ∀ v ∈ img.data, img.calculate_statistics.min ≤ v) ∧
      (img.calculate_statistics.max ∈ img.data ∧
        ∀ v ∈ img.data, v ≤ img.calculate_statistics.max) ∧
      img.calculate_statistics.mean = img.data.sum / ((img.data.length : ℚ)) ∧
      img.calculate_statistics.variance =
        (img.data.map (fun v =>
          (v - img.data.sum / ((img.data.length : ℚ))) ^ 2)).sum /
          ((img.data.length : ℚ)) ∧
      img.calculate_statistics.median = medianOfList img.data) ∧
    (img1234.calculate_statistics.mean = 5 / 2 ∧
     img1234.calculate_statistics.median = 5 / 2 ∧
     img1234.calculate_statistics.min = 1 ∧
     img1234.calculate_statistics.max = 4 ∧
     |Real.sqrt ((img1234.calculate_statistics.variance : ℚ) : ℝ) - 1.11803| <
       1 / 100000) := by
  constructor
  · intro img hne hbound
    have hminfold : img.calculate_statistics.min
        = img.data.foldl (fun m v => if v < m then v else m) f32Max := rfl
    have hmaxfold : img.calculate_statistics.max
        = img.data.foldl (fun m v => if v > m then v else m) f32Lowest := rfl
    obtain ⟨hminmem, hminle⟩ := foldl_min_spec img.data f32Max
    obtain ⟨hmaxmem, hmaxle⟩ := foldl_max_spec img.data f32Lowest
    refine ⟨⟨?_, ?_⟩, ⟨?_, ?_⟩, rfl, rfl, ?_⟩
    · rw [hminfold]
      rcases List.mem_cons.mp hminmem with hm | hm
      · obtain ⟨w, t, hwt⟩ := List.exists_cons_of_ne_nil hne
        have hw : w ∈ img.data := by rw [hwt]; exact List.mem_cons_self _ _
        have h1 := hminle w (List.mem_cons.mpr (Or.inr hw))
        have h2 := (hbound w hw).2
        have hweq : w = f32Max := le_antisymm h2 (hm ▸ h1)
        rw [hm, ← hweq]
        exact hw
      · exact hm
    · intro v hv
      rw [hminfold]
      exact hminle v (List.mem_cons.mpr (Or.inr hv))
    · rw [hmaxfold]
      rcases List.mem_cons.mp hmaxmem with hm | hm
      · obtain ⟨w, t, hwt⟩ := List.exists_cons_of_ne_nil hne
        have hw : w ∈ img.data := by rw [hwt]; exact List.mem_cons_self _ _
        have h1 := hmaxle w (List.mem_cons.mpr (Or.inr hw))
        have h2 := (hbound w hw).1
        have hweq : w = f32Lowest := le_antisymm (hm ▸ h1) h2
        rw [hm, ← hweq]
        exact hw
      · exact hm
    · intro v hv
      rw [hmaxfold]
      exact hmaxle v (List.mem_cons.mpr (Or.inr hv))
    · have hmed : img.calculate_statistics.median = statsMedian img.data := rfl
      rw [hmed]
      unfold statsMedian
      obtain ⟨w, t, hwt⟩ := List.exists_cons_of_ne_nil hne
      rw [hwt]
      simp
  · have hvar : img1234.calculate_statistics.variance = 5 / 4 := by
      show ((([1, 2, 3, 4] : List ℚ).map (fun v =>
          (v - ([1, 2, 3, 4] : List ℚ).sum /
            ((([1, 2, 3, 4] : List ℚ).length : ℚ))) ^ 2)).sum) /
          ((([1, 2, 3, 4] : List ℚ).length : ℚ)) = 5 / 4
      norm_num [List.sum_cons, List.sum_nil]
    have hmean : img1234.calculate_statistics.mean = 5 / 2 := by
      show (([1, 2, 3, 4] : List ℚ).sum) /
          ((([1, 2, 3, 4] : List ℚ).length : ℚ)) = 5 / 2
      norm_num [List.sum_cons, List.sum_nil]
    have hmedian : img1234.calculate_statistics.median = 5 / 2 := by
      show statsMedian [1, 2, 3, 4] = 5 / 2
      norm_num [statsMedian, medianOfList, List.insertionSort,
        List.orderedInsert, List.getD]
    refine ⟨hmean, hmedian, by decide, by decide, ?_⟩
    rw [hvar]
    have hq : (((5 / 4 : ℚ)) : ℝ) = (5 / 4 : ℝ) := by norm_num
    rw [hq]
    have hnn : (0 : ℝ) ≤ (5 / 4 : ℝ) := by norm_num
    have hs2 := Real.sq_sqrt hnn
    have hs0 := Real.sqrt_nonneg (5 / 4 : ℝ)
    rw [abs_lt]
    constructor
    · nlinarith [hs2, hs0, sq_nonneg (Real.sqrt (5 / 4 : ℝ) - 112 / 100)]
    · nlinarith [hs2, hs0, sq_nonneg (Real.sqrt (5 / 4 : ℝ) - 112 / 100)]

/-- C5 witness: the general statement applied to the `[1, 2, 3, 4]` buffer,
together with the concrete values. -/
theorem statistics_spec_witness :
    ((img1234.calculate_statistics.min ∈ img1234.data ∧
        ∀ v ∈ img1234.data, img1234.calculate_statistics.min ≤ v) ∧
      (img1234.calculate_statistics.max ∈ img1234.data ∧
        ∀ v ∈ img1234.data, v ≤ img1234.calculate_statistics.max) ∧
      img1234.calculate_statistics.mean =
        img1234.data.sum / ((img1234.data.length : ℚ)) ∧
      img1234.calculate_statistics.variance =
        (img1234.data.map (fun v =>
          (v - img1234.data.sum / ((img1234.data.length : ℚ))) ^ 2)).sum /
          ((img1234.data.length : ℚ)) ∧
      img1234.calculate_statistics.median = medianOfList img1234.data) ∧
    img1234.calculate_statistics.mean = 5 / 2 :=
  ⟨statistics_spec.1 img1234 (by decide) (by decide),
   statistics_spec.2.1⟩

end Eventide
